import Mathlib

/-
Verification of the merge / validation / referential-integrity core of the
Person/Address/Course/Assignment in-memory CRUD service (`new_main.py` and the
Pydantic models under `models/`).

Modelling conventions:
- UUIDs are modelled as `Nat`; `datetime.utcnow()` results are modelled as a
  `Nat` parameter `now` supplied to each handler that calls the clock.
- A Python dict is modelled as an association list `List (Nat × α)`:
  `getv` is `d[k]` / `d.get(k)`, `hasKey` is `k in d`, `setv` is `d[k] = v`
  (replace in place when the key exists, append otherwise — Python dicts keep
  insertion order and key-reassignment keeps the position), `delv` is `del d[k]`.
- Pydantic update models with `model_dump(exclude_unset=True)` are modelled with
  `Option` fields: `none` = field absent from the payload, `some v` = field
  present with value `v`.  For fields that are themselves `Optional` in the Read
  model (`due_date`, `points`, the Person profile fields) a present value is an
  `Option` again, so the payload field is `Option (Option _)`.
- Handlers have type `... → AppState → Except Err β × AppState`: the state is
  always returned, so "a failing call leaves the store unchanged" is a real
  statement about the translated control flow (every `raise` in the source
  happens before any store mutation, and the translation mirrors that order).
-/

/-- Error taxonomy of the service: 404 NotFound, 409 Conflict,
400 "course_id must refer to an existing course" (BadReference),
422 Pydantic validation failure, and 400 "Address with this ID already exists"
(DuplicateId). -/
inductive Err where
  | notFound
  | conflict
  | badReference
  | validation
  | duplicateId
deriving DecidableEq, Repr

/-- Dict lookup `d.get(k)`: first entry with the given key. -/
def getv : List (Nat × α) → Nat → Option α
  | [], _ => none
  | p :: t, k => if p.1 == k then some p.2 else getv t k

/-- Dict membership `k in d`. -/
def hasKey (m : List (Nat × α)) (k : Nat) : Bool :=
  (getv m k).isSome

/-- Dict assignment `d[k] = v`: replace in place if the key exists, else append. -/
def setv : List (Nat × α) → Nat → α → List (Nat × α)
  | [], k, v => [(k, v)]
  | p :: t, k, v => if p.1 == k then (k, v) :: t else p :: setv t k v

/-- Dict deletion `del d[k]`. -/
def delv (m : List (Nat × α)) (k : Nat) : List (Nat × α) :=
  m.filter (fun p => p.1 != k)

/-- A store is dict-representable when its keys are distinct (always true of an
actual Python dict). -/
def keysNodup (m : List (Nat × α)) : Prop :=
  (m.map (fun p => p.1)).Nodup

instance (m : List (Nat × α)) : Decidable (keysNodup m) :=
  inferInstanceAs (Decidable (List.Nodup _))

instance {ε α : Type} [DecidableEq ε] [DecidableEq α] :
    DecidableEq (Except ε α) := fun a b =>
  match a, b with
  | .error x, .error y =>
    if h : x = y then isTrue (by rw [h])
    else isFalse (fun hh => h (Except.error.inj hh))
  | .ok x, .ok y =>
    if h : x = y then isTrue (by rw [h])
    else isFalse (fun hh => h (Except.ok.inj hh))
  | .error _, .ok _ => isFalse (fun hh => Except.noConfusion hh)
  | .ok _, .error _ => isFalse (fun hh => Except.noConfusion hh)

/-- Modelled from the spec: `models/address.py` is not in the repository.
Per the spec's data model, an Address record has the five required string
fields, a client-supplied id, and the `created_at` / `updated_at` stamps every
Read-variant record carries. -/
structure AddressRead where
  id : Nat
  street : String
  city : String
  state : String
  postal_code : String
  country : String
  created_at : Nat
  updated_at : Nat
deriving DecidableEq, Repr

/-- Modelled from the spec: create payload for Address — the five required
fields plus the caller-chosen id (the only entity allowing one). -/
structure AddressCreate where
  id : Nat
  street : String
  city : String
  state : String
  postal_code : String
  country : String
deriving DecidableEq, Repr

/-- Modelled from the spec: update payload for Address, every field optional;
`none` = absent from the payload. -/
structure AddressUpdate where
  street : Option String
  city : Option String
  state : Option String
  postal_code : Option String
  country : Option String
deriving DecidableEq, Repr

/-- Modelled from the spec: an Address embedded in a Person (the `list_persons`
filters access `addr.city` and `addr.country` of each element of
`p.addresses`). -/
structure AddressEmb where
  street : String
  city : String
  state : String
  postal_code : String
  country : String
deriving DecidableEq, Repr

/-- Modelled from the spec: `models/person.py` is not in the repository.
Per the spec a Person has an optional profile (uni, names, email, phone,
birth_date) and an ordered sequence of embedded Addresses; `birth_date` is kept
as its string rendering since `list_persons` compares `str(p.birth_date)`. -/
structure PersonRead where
  id : Nat
  uni : Option String
  first_name : Option String
  last_name : Option String
  email : Option String
  phone : Option String
  birth_date : Option String
  addresses : List AddressEmb
  created_at : Nat
  updated_at : Nat
deriving DecidableEq, Repr

/-- Modelled from the spec: update payload for Person.  The profile fields are
`Optional` in the Read model as well, so presence in the payload
(`Option (Option String)`: `none` = absent, `some w` = present with value `w`,
where `w` may itself be `none` = explicit null) is tracked separately from the
value. -/
structure PersonUpdate where
  uni : Option (Option String)
  first_name : Option (Option String)
  last_name : Option (Option String)
  email : Option (Option String)
  phone : Option (Option String)
  birth_date : Option (Option String)
  addresses : Option (List AddressEmb)
deriving DecidableEq, Repr

/-- `CourseRead` from `models/course.py`: required code/title/instructor/semester
plus generated id and timestamps. -/
structure CourseRead where
  id : Nat
  code : String
  title : String
  instructor : String
  semester : String
  created_at : Nat
  updated_at : Nat
deriving DecidableEq, Repr

/-- `CourseCreate` from `models/course.py`: the four required fields, no id. -/
structure CourseCreate where
  code : String
  title : String
  instructor : String
  semester : String
deriving DecidableEq, Repr

/-- `CourseUpdate` from `models/course.py`: every field optional; `none` =
absent from the payload (`model_dump(exclude_unset=True)` drops it). -/
structure CourseUpdate where
  code : Option String
  title : Option String
  instructor : Option String
  semester : Option String
deriving DecidableEq, Repr

/-- `AssignmentRead` from `models/assignment.py`: course_id and title required,
due_date and points optional, plus generated id and timestamps.  `due_date` is
kept as its string rendering. -/
structure AssignmentRead where
  id : Nat
  course_id : Nat
  title : String
  due_date : Option String
  points : Option Int
  created_at : Nat
  updated_at : Nat
deriving DecidableEq, Repr

/-- `AssignmentCreate` as the handler sees it, after Pydantic validation:
points already defaulted/validated. -/
structure AssignmentCreate where
  course_id : Nat
  title : String
  due_date : Option String
  points : Option Int
deriving DecidableEq, Repr

/-- `AssignmentCreate` as the client sends it, before Pydantic validation:
`points` is `none` when omitted, `some none` when explicitly null, and
`some (some v)` when given the integer `v` (validated against `ge=0, le=1000`,
default `100` when omitted). -/
structure AssignmentCreateRaw where
  course_id : Nat
  title : String
  due_date : Option String
  points : Option (Option Int)
deriving DecidableEq, Repr

/-- `AssignmentUpdate` from `models/assignment.py`: every field optional.
`course_id`/`title` carry a value when present; `due_date`/`points` are
`Optional` in the Read model too, so a present value may itself be null. -/
structure AssignmentUpdate where
  course_id : Option Nat
  title : Option String
  due_date : Option (Option String)
  points : Option (Option Int)
deriving DecidableEq, Repr

/-- The four global in-memory stores of `new_main.py`. -/
structure AppState where
  addresses : List (Nat × AddressRead)
  persons : List (Nat × PersonRead)
  courses : List (Nat × CourseRead)
  assignments : List (Nat × AssignmentRead)
deriving DecidableEq, Repr

/-- The empty process-start state. -/
def emptyState : AppState :=
  ⟨[], [], [], []⟩

/-- `create_address` (new_main.py:56-61): reject a duplicate client-supplied id,
otherwise store `AddressRead(**address.model_dump())`; the timestamp default
factories fire at construction time. -/
def create_address (a : AddressCreate) (now : Nat) (st : AppState) :
    Except Err AddressRead × AppState :=
  if hasKey st.addresses a.id then
    (.error .duplicateId, st)
  else
    let r : AddressRead :=
      ⟨a.id, a.street, a.city, a.state, a.postal_code, a.country, now, now⟩
    (.ok r, { st with addresses := setv st.addresses a.id r })

/-- `update_address` (new_main.py:92-99): 404 when absent, otherwise merge
`model_dump(exclude_unset=True)` over the stored dump and re-store.  The stored
dump already carries `created_at`/`updated_at`, so both pass through unchanged —
this handler never calls the clock. -/
def update_address (aid : Nat) (u : AddressUpdate) (st : AppState) :
    Except Err AddressRead × AppState :=
  match getv st.addresses aid with
  | none => (.error .notFound, st)
  | some s =>
    let r : AddressRead :=
      ⟨s.id, u.street.getD s.street, u.city.getD s.city, u.state.getD s.state,
       u.postal_code.getD s.postal_code, u.country.getD s.country,
       s.created_at, s.updated_at⟩
    (.ok r, { st with addresses := setv st.addresses aid r })

/-- `update_person` (new_main.py:148-155): 404 when absent, otherwise merge the
explicitly-set payload fields over the stored dump and re-store.  As with
`update_address`, the timestamps pass through from the stored dump. -/
def update_person (pid : Nat) (u : PersonUpdate) (st : AppState) :
    Except Err PersonRead × AppState :=
  match getv st.persons pid with
  | none => (.error .notFound, st)
  | some s =>
    let r : PersonRead :=
      ⟨s.id, u.uni.getD s.uni, u.first_name.getD s.first_name,
       u.last_name.getD s.last_name, u.email.getD s.email,
       u.phone.getD s.phone, u.birth_date.getD s.birth_date,
       u.addresses.getD s.addresses, s.created_at, s.updated_at⟩
    (.ok r, { st with persons := setv st.persons pid r })

/-- `str(p.birth_date)` as used by the `birth_date` filter of `list_persons`:
Python renders `None` as the string "None". -/
def birth_date_str : Option String → String
  | none => "None"
  | some s => s

/-- One `if x is not None: results = [p for p in results if q(x, p)]` step of a
list handler. -/
def optFilter (o : Option String) (q : String → α → Bool) (l : List α) : List α :=
  match o with
  | none => l
  | some v => l.filter (q v)

/-- `list_persons` (new_main.py:108-140): start from all stored persons, then
apply each supplied equality filter in turn; `city`/`country` keep a person
when ANY embedded address matches. -/
def list_persons (uni first_name last_name email phone birth_date city country :
    Option String) (st : AppState) : List PersonRead :=
  let r0 := st.persons.map (fun q => q.2)
  let r1 := optFilter uni (fun v p => p.uni == some v) r0
  let r2 := optFilter first_name (fun v p => p.first_name == some v) r1
  let r3 := optFilter last_name (fun v p => p.last_name == some v) r2
  let r4 := optFilter email (fun v p => p.email == some v) r3
  let r5 := optFilter phone (fun v p => p.phone == some v) r4
  let r6 := optFilter birth_date (fun v p => birth_date_str p.birth_date == v) r5
  let r7 := optFilter city (fun v p => p.addresses.any (fun a => a.city == v)) r6
  optFilter country (fun v p => p.addresses.any (fun a => a.country == v)) r7

/-- `create_course` (new_main.py:158-170): 409 when any stored course has the
same (code, semester); otherwise stamp both timestamps with one `utcnow()` and
store the record under its freshly generated id. -/
def create_course (c : CourseCreate) (id now : Nat) (st : AppState) :
    Except Err CourseRead × AppState :=
  if st.courses.any (fun p => p.2.code == c.code && p.2.semester == c.semester) then
    (.error .conflict, st)
  else
    let r : CourseRead := ⟨id, c.code, c.title, c.instructor, c.semester, now, now⟩
    (.ok r, { st with courses := setv st.courses id r })

/-- `get_course` (new_main.py:187-191). -/
def get_course (cid : Nat) (st : AppState) : Except Err CourseRead :=
  match getv st.courses cid with
  | none => .error .notFound
  | some c => .ok c

/-- `update_course` (new_main.py:193-207): 404 when absent; compute the
post-merge (code, semester); 409 when any stored course with a different
record id carries that pair; otherwise commit the merged record with a fresh
`updated_at`. -/
def update_course (cid : Nat) (u : CourseUpdate) (now : Nat) (st : AppState) :
    Except Err CourseRead × AppState :=
  match getv st.courses cid with
  | none => (.error .notFound, st)
  | some s =>
    let new_code := u.code.getD s.code
    let new_sem := u.semester.getD s.semester
    if st.courses.any (fun p => p.2.id != cid && p.2.code == new_code &&
        p.2.semester == new_sem) then
      (.error .conflict, st)
    else
      let r : CourseRead :=
        ⟨s.id, new_code, u.title.getD s.title, u.instructor.getD s.instructor,
         new_sem, s.created_at, now⟩
      (.ok r, { st with courses := setv st.courses cid r })

/-- `delete_course` (new_main.py:209-216): 404 when absent; otherwise delete
every assignment whose `course_id` field equals the course id, then delete the
course. -/
def delete_course (cid : Nat) (st : AppState) : Except Err Unit × AppState :=
  if hasKey st.courses cid then
    (.ok (), { st with
      assignments := st.assignments.filter (fun p => p.2.course_id != cid),
      courses := delv st.courses cid })
  else
    (.error .notFound, st)

/-- `create_assignment` handler body (new_main.py:219-228): 400 when
`course_id` is not a key of the course store; otherwise stamp timestamps and
store under the generated id. -/
def create_assignment (a : AssignmentCreate) (id now : Nat) (st : AppState) :
    Except Err AssignmentRead × AppState :=
  if hasKey st.courses a.course_id then
    let r : AssignmentRead :=
      ⟨id, a.course_id, a.title, a.due_date, a.points, now, now⟩
    (.ok r, { st with assignments := setv st.assignments id r })
  else
    (.error .badReference, st)

/-- `get_assignment` (new_main.py:237-241). -/
def get_assignment (aid : Nat) (st : AppState) : Except Err AssignmentRead :=
  match getv st.assignments aid with
  | none => .error .notFound
  | some a => .ok a

/-- The `"course_id" in newvals and newvals["course_id"] not in courses` test of
`update_assignment`. -/
def course_ref_missing (st : AppState) : Option Nat → Bool
  | some k => !(hasKey st.courses k)
  | none => false

/-- `update_assignment` handler body (new_main.py:243-255): 404 when absent;
400 when the payload carries a `course_id` that is not a stored course key;
otherwise merge the explicitly-set fields, refresh `updated_at`, and commit. -/
def update_assignment (aid : Nat) (u : AssignmentUpdate) (now : Nat)
    (st : AppState) : Except Err AssignmentRead × AppState :=
  match getv st.assignments aid with
  | none => (.error .notFound, st)
  | some s =>
    if course_ref_missing st u.course_id then
      (.error .badReference, st)
    else
      let r : AssignmentRead :=
        ⟨s.id, u.course_id.getD s.course_id, u.title.getD s.title,
         u.due_date.getD s.due_date, u.points.getD s.points,
         s.created_at, now⟩
      (.ok r, { st with assignments := setv st.assignments aid r })

/-- `delete_assignment` (new_main.py:257-261). -/
def delete_assignment (aid : Nat) (st : AppState) : Except Err Unit × AppState :=
  if hasKey st.assignments aid then
    (.ok (), { st with assignments := delv st.assignments aid })
  else
    (.error .notFound, st)

/-- Pydantic validation of `AssignmentCreate.points`
(`Optional[int] = Field(100, ge=0, le=1000)`): omitted → default 100,
explicit null → null, out-of-range integer → 422 before the handler runs. -/
def validate_points_create : Option (Option Int) → Except Err (Option Int)
  | none => .ok (some 100)
  | some none => .ok none
  | some (some v) => if 0 ≤ v ∧ v ≤ 1000 then .ok (some v) else .error .validation

/-- Pydantic validation of `AssignmentUpdate.points`
(`Field(None, ge=0, le=1000)`): only a present integer is range-checked. -/
def validate_points_update : Option (Option Int) → Except Err (Option (Option Int))
  | some (some v) =>
    if 0 ≤ v ∧ v ≤ 1000 then .ok (some (some v)) else .error .validation
  | o => .ok o

/-- POST /assignments end to end: Pydantic validation, then the handler. -/
def create_assignment_api (a : AssignmentCreateRaw) (id now : Nat)
    (st : AppState) : Except Err AssignmentRead × AppState :=
  match validate_points_create a.points with
  | .error e => (.error e, st)
  | .ok pts => create_assignment ⟨a.course_id, a.title, a.due_date, pts⟩ id now st

/-- PATCH /assignments/{id} end to end: Pydantic validation, then the handler. -/
def update_assignment_api (aid : Nat) (u : AssignmentUpdate) (now : Nat)
    (st : AppState) : Except Err AssignmentRead × AppState :=
  match validate_points_update u.points with
  | .error e => (.error e, st)
  | .ok pts => update_assignment aid ⟨u.course_id, u.title, u.due_date, pts⟩ now st

/-- Every stored assignment references a stored course. -/
def refIntegrity (st : AppState) : Prop :=
  ∀ p ∈ st.assignments, hasKey st.courses p.2.course_id = true

/-- One mutating request against the Course/Assignment stores. -/
inductive Op where
  | createCourse (c : CourseCreate) (id now : Nat)
  | updateCourse (cid : Nat) (u : CourseUpdate) (now : Nat)
  | deleteCourse (cid : Nat)
  | createAssignment (a : AssignmentCreateRaw) (id now : Nat)
  | updateAssignment (aid : Nat) (u : AssignmentUpdate) (now : Nat)
  | deleteAssignment (aid : Nat)

/-- The state after serving one request (the response body is dropped). -/
def applyOp (o : Op) (st : AppState) : AppState :=
  match o with
  | .createCourse c id now => (create_course c id now st).2
  | .updateCourse cid u now => (update_course cid u now st).2
  | .deleteCourse cid => (delete_course cid st).2
  | .createAssignment a id now => (create_assignment_api a id now st).2
  | .updateAssignment aid u now => (update_assignment_api aid u now st).2
  | .deleteAssignment aid => (delete_assignment aid st).2

/-- The state after serving a sequence of requests. -/
def runOps (ops : List Op) (st : AppState) : AppState :=
  ops.foldl (fun s o => applyOp o s) st

/-- Sample stored course used by concrete witnesses. -/
def wCourse : CourseRead :=
  ⟨1, "COMS4153", "Cloud Computing", "Prof. Ferguson", "Fall 2025", 0, 0⟩

/-- Sample assignment referencing `wCourse`. -/
def wAssignment : AssignmentRead :=
  ⟨2, 1, "HW1", none, some 100, 0, 0⟩

/-- Sample stored address (updated_at = 5). -/
def wAddress : AddressRead :=
  ⟨7, "Broadway", "NYC", "NY", "10027", "USA", 3, 5⟩

/-- Sample stored person with one embedded NYC address. -/
def wPerson : PersonRead :=
  ⟨4, none, some "Ada", none, none, none, none,
   [⟨"Broadway", "NYC", "NY", "10027", "USA"⟩], 0, 0⟩

/-- Sample state: one address, one person, one course, one assignment. -/
def wState : AppState :=
  ⟨[(7, wAddress)], [(4, wPerson)], [(1, wCourse)], [(2, wAssignment)]⟩

/-- An address update payload setting only the street. -/
def ceAddrUpdate : AddressUpdate :=
  ⟨some "Amsterdam Ave", none, none, none, none⟩

/-- The record `update_address 7 ceAddrUpdate wState` produces: street merged,
timestamps carried over unchanged from `wAddress`. -/
def ceAddrResult : AddressRead :=
  ⟨7, "Amsterdam Ave", "NYC", "NY", "10027", "USA", 3, 5⟩

/-- State after the sample address update: only the address entry replaced. -/
def wStateAU : AppState :=
  ⟨[(7, ceAddrResult)], [(4, wPerson)], [(1, wCourse)], [(2, wAssignment)]⟩

/-- A course update payload setting only the code. -/
def wCourseUpdate : CourseUpdate :=
  ⟨some "COMS4156", none, none, none⟩

/-- Result of applying `wCourseUpdate` to `wCourse` at time 9. -/
def wCourseMerged : CourseRead :=
  ⟨1, "COMS4156", "Cloud Computing", "Prof. Ferguson", "Fall 2025", 0, 9⟩

/-- State after the sample course update. -/
def wStateCU : AppState :=
  ⟨[(7, wAddress)], [(4, wPerson)], [(1, wCourseMerged)], [(2, wAssignment)]⟩

/-- A second stored course sharing `wCourse`'s semester but not its code. -/
def wCourseB : CourseRead :=
  ⟨3, "COMS4111", "Databases", "Prof. Wu", "Fall 2025", 0, 0⟩

/-- Sample state holding two courses. -/
def wState2 : AppState :=
  ⟨[(7, wAddress)], [(4, wPerson)], [(1, wCourse), (3, wCourseB)], [(2, wAssignment)]⟩

/-- A course update that steers course 1's code onto course 3's (code, semester). -/
def wCodeUpdate : CourseUpdate :=
  ⟨some "COMS4111", none, none, none⟩

/-- A course create payload clashing with `wCourse` on (code, semester). -/
def wCourseCreateDup : CourseCreate :=
  ⟨"COMS4153", "Cloud Computing II", "Prof. Other", "Fall 2025"⟩

theorem getv_mem {m : List (Nat × α)} {k : Nat} {v : α} (h : getv m k = some v) :
    (k, v) ∈ m := by
  induction m with
  | nil => simp [getv] at h
  | cons p t ih =>
    obtain ⟨a, b⟩ := p
    rw [getv] at h
    by_cases hp : a = k
    · subst hp
      simp at h
      subst h
      exact List.mem_cons_self _ _
    · simp [hp] at h
      exact List.mem_cons_of_mem _ (ih h)

theorem hasKey_of_mem {m : List (Nat × α)} {k : Nat} {v : α} (h : (k, v) ∈ m) :
    hasKey m k = true := by
  induction m with
  | nil => simp at h
  | cons q t ih =>
    by_cases hq : q.1 = k
    · simp [hasKey, getv, hq]
    · rcases List.mem_cons.mp h with h1 | h2
      · rw [← h1] at hq
        simp at hq
      · simpa [hasKey, getv, hq] using ih h2

theorem exists_of_hasKey {m : List (Nat × α)} {k : Nat} (h : hasKey m k = true) :
    ∃ v, getv m k = some v := by
  rw [hasKey] at h
  exact Option.isSome_iff_exists.mp h

theorem mem_setv {m : List (Nat × α)} {k : Nat} {v : α} {p : Nat × α}
    (h : p ∈ setv m k v) : p = (k, v) ∨ p ∈ m := by
  induction m with
  | nil =>
    simp [setv] at h
    left
    exact h
  | cons q t ih =>
    rw [setv] at h
    by_cases hq : q.1 = k
    · simp only [hq, beq_self_eq_true, if_true, List.mem_cons] at h
      rcases h with h | h
      · left; exact h
      · right; exact List.mem_cons_of_mem _ h
    · simp only [hq, beq_iff_eq, if_false, if_neg, List.mem_cons] at h
      rcases h with h | h
      · right
        rw [h]
        exact List.mem_cons_self _ _
      · rcases ih h with h1 | h1
        · left; exact h1
        · right; exact List.mem_cons_of_mem _ h1

theorem setv_mem_self (m : List (Nat × α)) (k : Nat) (v : α) :
    (k, v) ∈ setv m k v := by
  induction m with
  | nil => simp [setv]
  | cons q t ih =>
    rw [setv]
    by_cases hq : q.1 = k
    · simp [hq]
    · simp only [hq, beq_iff_eq, if_neg, List.mem_cons]
      right
      exact ih

theorem mem_setv_of_ne {m : List (Nat × α)} {p : Nat × α} {k : Nat} {v : α}
    (h : p ∈ m) (hne : p.1 ≠ k) : p ∈ setv m k v := by
  induction m with
  | nil => simp at h
  | cons q t ih =>
    rw [setv]
    by_cases hq : q.1 = k
    · rcases List.mem_cons.mp h with h1 | h1
      · rw [h1] at hne
        exact absurd hq hne
      · simp only [hq, beq_self_eq_true, if_true]
        exact List.mem_cons_of_mem _ h1
    · rcases List.mem_cons.mp h with h1 | h1
      · simp only [hq, beq_iff_eq, if_neg]
        rw [h1]
        exact List.mem_cons_self _ _
      · simp only [hq, beq_iff_eq, if_neg]
        exact List.mem_cons_of_mem _ (ih h1)

theorem hasKey_setv {m : List (Nat × α)} {j k : Nat} {v : α}
    (h : hasKey m j = true) : hasKey (setv m k v) j = true := by
  obtain ⟨w, hw⟩ := exists_of_hasKey h
  by_cases hjk : j = k
  · subst hjk
    exact hasKey_of_mem (setv_mem_self m j v)
  · exact hasKey_of_mem (mem_setv_of_ne (getv_mem hw) hjk)

theorem getv_setv_self (m : List (Nat × α)) (k : Nat) (v : α) :
    getv (setv m k v) k = some v := by
  induction m with
  | nil => simp [setv, getv]
  | cons q t ih =>
    rw [setv]
    by_cases hq : q.1 = k
    · simp [hq, getv]
    · simp [getv, hq, ih]

theorem mem_delv {m : List (Nat × α)} {k : Nat} {p : Nat × α}
    (h : p ∈ delv m k) : p ∈ m ∧ p.1 ≠ k := by
  rw [delv] at h
  have hf := List.mem_filter.mp h
  refine ⟨hf.1, ?_⟩
  simpa using hf.2

theorem hasKey_delv {m : List (Nat × α)} {j k : Nat}
    (h : hasKey m j = true) (hne : j ≠ k) : hasKey (delv m k) j = true := by
  obtain ⟨w, hw⟩ := exists_of_hasKey h
  have hmem : (j, w) ∈ delv m k := by
    simp only [delv]
    exact List.mem_filter.mpr ⟨getv_mem hw, by simpa using hne⟩
  exact hasKey_of_mem hmem

theorem getv_delv_self (m : List (Nat × α)) (k : Nat) :
    getv (delv m k) k = none := by
  induction m with
  | nil => rfl
  | cons q t ih =>
    by_cases hq : q.1 = k <;>
      simpa [delv, List.filter_cons, hq, getv] using ih

theorem keysNodup_getv_unique {m : List (Nat × α)} (hn : keysNodup m) {k : Nat}
    {v w : α} (h1 : (k, v) ∈ m) (h2 : (k, w) ∈ m) : v = w := by
  have h := List.inj_on_of_nodup_map hn h1 h2 rfl
  exact congrArg Prod.snd h

theorem getv_filter_none {m : List (Nat × α)} {k : Nat} {v : α}
    {q : Nat × α → Bool} (hn : keysNodup m) (hv : getv m k = some v)
    (hq : q (k, v) = false) : getv (m.filter q) k = none := by
  cases hg : getv (m.filter q) k with
  | none => rfl
  | some w =>
    obtain ⟨hm, hqt⟩ := List.mem_filter.mp (getv_mem hg)
    have hvw : w = v := keysNodup_getv_unique hn hm (getv_mem hv)
    subst hvw
    rw [hqt] at hq
    exact Bool.noConfusion hq

theorem mem_optFilter {o : Option String} {q : String → α → Bool} {l : List α}
    {x : α} : x ∈ optFilter o q l ↔ x ∈ l ∧ ∀ v, o = some v → q v x = true := by
  cases o with
  | none => simp [optFilter]
  | some v => simp [optFilter, List.mem_filter]

/-- C1: deleting a Course whose id is present succeeds, removes that Course,
and removes every Assignment whose course_id equals that Course's id;
afterwards Get on the Course id and Get on any such Assignment id both yield
NotFound.  (`keysNodup` states that the assignment store is an actual dict:
distinct keys.) -/
theorem delete_course_cascades (cid : Nat) (st : AppState)
    (hn : keysNodup st.assignments) (hc : hasKey st.courses cid = true) :
    (delete_course cid st).1 = .ok () ∧
    get_course cid (delete_course cid st).2 = .error .notFound ∧
    ∀ aid a, getv st.assignments aid = some a → a.course_id = cid →
      get_assignment aid (delete_course cid st).2 = .error .notFound := by
  simp only [delete_course, hc, if_true]
  refine ⟨trivial, ?_, ?_⟩
  · simp [get_course, getv_delv_self]
  · intro aid a hga hcid
    have hnone : getv (st.assignments.filter (fun p => p.2.course_id != cid))
        aid = none := by
      apply getv_filter_none hn hga
      simp [hcid]
    simp [get_assignment, hnone]

/-- C1 witness: concrete run on `wState` (course 1, assignment 2→course 1). -/
theorem delete_course_cascades_witness :
    keysNodup wState.assignments ∧ hasKey wState.courses 1 = true ∧
    ((delete_course 1 wState).1 = .ok () ∧
      get_course 1 (delete_course 1 wState).2 = .error .notFound ∧
      ∀ aid a, getv wState.assignments aid = some a → a.course_id = 1 →
        get_assignment aid (delete_course 1 wState).2 = .error .notFound) :=
  ⟨by decide, by decide, delete_course_cascades 1 wState (by decide) (by decide)⟩

/-- C2: when a partial Update succeeds, each updatable field of the resulting
record is `payload value when present, stored value when absent` — which is
exactly `Option.getD` — for every updatable field of Course, Assignment,
Address and Person. -/
theorem update_merges_fields :
    (∀ cid u now st s r st2, getv st.courses cid = some s →
        update_course cid u now st = (.ok r, st2) →
        r.code = u.code.getD s.code ∧ r.title = u.title.getD s.title ∧
        r.instructor = u.instructor.getD s.instructor ∧
        r.semester = u.semester.getD s.semester) ∧
    (∀ aid u now st s r st2, getv st.assignments aid = some s →
        update_assignment aid u now st = (.ok r, st2) →
        r.course_id = u.course_id.getD s.course_id ∧
        r.title = u.title.getD s.title ∧
        r.due_date = u.due_date.getD s.due_date ∧
        r.points = u.points.getD s.points) ∧
    (∀ aid u st s r st2, getv st.addresses aid = some s →
        update_address aid u st = (.ok r, st2) →
        r.street = u.street.getD s.street ∧ r.city = u.city.getD s.city ∧
        r.state = u.state.getD s.state ∧
        r.postal_code = u.postal_code.getD s.postal_code ∧
        r.country = u.country.getD s.country) ∧
    (∀ pid u st s r st2, getv st.persons pid = some s →
        update_person pid u st = (.ok r, st2) →
        r.uni = u.uni.getD s.uni ∧
        r.first_name = u.first_name.getD s.first_name ∧
        r.last_name = u.last_name.getD s.last_name ∧
        r.email = u.email.getD s.email ∧ r.phone = u.phone.getD s.phone ∧
        r.birth_date = u.birth_date.getD s.birth_date ∧
        r.addresses = u.addresses.getD s.addresses) := by
  refine ⟨?_, ?_, ?_, ?_⟩
  · intro cid u now st s r st2 hg h
    simp only [update_course, hg] at h
    split at h
    · exact absurd h (by simp)
    · simp only [Prod.mk.injEq, Except.ok.injEq] at h
      obtain ⟨hr, -⟩ := h
      subst hr
      exact ⟨rfl, rfl, rfl, rfl⟩
  · intro aid u now st s r st2 hg h
    simp only [update_assignment, hg] at h
    split at h
    · exact absurd h (by simp)
    · simp only [Prod.mk.injEq, Except.ok.injEq] at h
      obtain ⟨hr, -⟩ := h
      subst hr
      exact ⟨rfl, rfl, rfl, rfl⟩
  · intro aid u st s r st2 hg h
    simp only [update_address, hg] at h
    simp only [Prod.mk.injEq, Except.ok.injEq] at h
    obtain ⟨hr, -⟩ := h
    subst hr
    exact ⟨rfl, rfl, rfl, rfl, rfl⟩
  · intro pid u st s r st2 hg h
    simp only [update_person, hg] at h
    simp only [Prod.mk.injEq, Except.ok.injEq] at h
    obtain ⟨hr, -⟩ := h
    subst hr
    exact ⟨rfl, rfl, rfl, rfl, rfl, rfl, rfl⟩

/-- C2 witness: course 1 of `wState` updated with only a new code at time 9. -/
theorem update_merges_fields_witness :
    getv wState.courses 1 = some wCourse ∧
    update_course 1 wCourseUpdate 9 wState = (.ok wCourseMerged, wStateCU) ∧
    (wCourseMerged.code = wCourseUpdate.code.getD wCourse.code ∧
     wCourseMerged.title = wCourseUpdate.title.getD wCourse.title ∧
     wCourseMerged.instructor = wCourseUpdate.instructor.getD wCourse.instructor ∧
     wCourseMerged.semester = wCourseUpdate.semester.getD wCourse.semester) :=
  ⟨by decide, by decide,
   update_merges_fields.1 1 wCourseUpdate 9 wState wCourse wCourseMerged wStateCU
     (by decide) (by decide)⟩

theorem create_course_conflict_aux {c : CourseCreate} {st : AppState}
    (h : ∃ p ∈ st.courses, p.2.code = c.code ∧ p.2.semester = c.semester)
    (id now : Nat) : create_course c id now st = (.error .conflict, st) := by
  obtain ⟨p, hp, hcode, hsem⟩ := h
  have hany : st.courses.any
      (fun p => p.2.code == c.code && p.2.semester == c.semester) = true := by
    rw [List.any_eq_true]
    exact ⟨p, hp, by simp [hcode, hsem]⟩
  simp [create_course, hany]

/-- C3: a Course Create whose (code, semester) equals a stored Course's pair
fails with Conflict; in particular, after a successful Create, a second Create
with the same (code, semester) always yields Conflict. -/
theorem create_course_conflict :
    (∀ c id now st,
        (∃ p ∈ st.courses, p.2.code = c.code ∧ p.2.semester = c.semester) →
        create_course c id now st = (.error .conflict, st)) ∧
    (∀ c c2 id id2 now now2 st r st2, c2.code = c.code → c2.semester = c.semester →
        create_course c id now st = (.ok r, st2) →
        (create_course c2 id2 now2 st2).1 = .error .conflict) := by
  constructor
  · intro c id now st h
    exact create_course_conflict_aux h id now
  · intro c c2 id id2 now now2 st r st2 hcode hsem h
    simp only [create_course] at h
    split at h
    · exact absurd h (by simp)
    · simp only [Prod.mk.injEq, Except.ok.injEq] at h
      obtain ⟨-, hst⟩ := h
      have hmem : (id, (⟨id, c.code, c.title, c.instructor, c.semester, now, now⟩ :
          CourseRead)) ∈ st2.courses := by
        rw [← hst]
        exact setv_mem_self _ _ _
      rw [create_course_conflict_aux ⟨_, hmem, by simp [hcode], by simp [hsem]⟩ id2 now2]

/-- C3 witness: creating a (COMS4153, Fall 2025) clone on `wState` conflicts. -/
theorem create_course_conflict_witness :
    (∃ p ∈ wState.courses, p.2.code = wCourseCreateDup.code ∧
      p.2.semester = wCourseCreateDup.semester) ∧
    create_course wCourseCreateDup 9 9 wState = (.error .conflict, wState) :=
  ⟨by decide, create_course_conflict.1 wCourseCreateDup 9 9 wState (by decide)⟩

/-- C4: an Assignment Create whose course_id is no stored Course key fails with
BadReference; an Assignment Update whose prospective (post-merge) course_id is
no stored Course key fails with BadReference.  For the update, `refIntegrity`
restricts to states the running service can be in (C8 proves it holds after
every request sequence): there the stored course_id always resolves, so a bad
prospective reference can only come from the payload, which the handler
checks. -/
theorem assignment_bad_reference :
    (∀ a id now st, hasKey st.courses a.course_id = false →
        create_assignment a id now st = (.error .badReference, st)) ∧
    (∀ aid u now st s, refIntegrity st → getv st.assignments aid = some s →
        hasKey st.courses (u.course_id.getD s.course_id) = false →
        update_assignment aid u now st = (.error .badReference, st)) := by
  constructor
  · intro a id now st h
    simp [create_assignment, h]
  · intro aid u now st s hri hg h
    cases hu : u.course_id with
    | some k =>
      rw [hu] at h
      have hm : course_ref_missing st u.course_id = true := by
        simp [course_ref_missing, hu]
        simpa using h
      simp [update_assignment, hg, hm]
    | none =>
      exfalso
      have hk := hri _ (getv_mem hg)
      rw [hu] at h
      simp only [Option.getD] at h
      rw [hk] at h
      exact Bool.noConfusion h

/-- C4 witness: creating an assignment against absent course 99 on `wState`. -/
theorem assignment_bad_reference_witness :
    hasKey wState.courses 99 = false ∧
    create_assignment ⟨99, "HW2", none, some 100⟩ 5 3 wState =
      (.error .badReference, wState) :=
  ⟨by decide,
   assignment_bad_reference.1 ⟨99, "HW2", none, some 100⟩ 5 3 wState (by decide)⟩

/-- C5: for an Update of a stored Course, the uniqueness check runs on the
post-merge (code, semester) — payload value when present, stored value
otherwise — and excludes the record being updated: the call yields Conflict
exactly when some stored Course with a different id carries the post-merge
pair. -/
theorem update_course_conflict_iff (cid : Nat) (u : CourseUpdate) (now : Nat)
    (st : AppState) (s : CourseRead) (hg : getv st.courses cid = some s) :
    ((update_course cid u now st).1 = .error .conflict ↔
      ∃ p ∈ st.courses, p.2.id ≠ cid ∧ p.2.code = u.code.getD s.code ∧
        p.2.semester = u.semester.getD s.semester) := by
  simp only [update_course, hg]
  split
  case isTrue hcond =>
    refine iff_of_true rfl ?_
    rw [List.any_eq_true] at hcond
    obtain ⟨p, hp, hb⟩ := hcond
    simp only [Bool.and_eq_true, bne_iff_ne, beq_iff_eq] at hb
    exact ⟨p, hp, hb.1.1, hb.1.2, hb.2⟩
  case isFalse hcond =>
    refine iff_of_false (by simp) ?_
    intro hex
    apply hcond
    obtain ⟨p, hp, h1, h2, h3⟩ := hex
    rw [List.any_eq_true]
    exact ⟨p, hp, by simp [h1, h2, h3]⟩

/-- C5 witness: steering course 1's code onto course 3's (code, semester) in
`wState2` yields Conflict, matched by the existential over the other course. -/
theorem update_course_conflict_iff_witness :
    getv wState2.courses 1 = some wCourse ∧
    ((update_course 1 wCodeUpdate 9 wState2).1 = .error .conflict ↔
      ∃ p ∈ wState2.courses, p.2.id ≠ 1 ∧
        p.2.code = wCodeUpdate.code.getD wCourse.code ∧
        p.2.semester = wCodeUpdate.semester.getD wCourse.semester) :=
  ⟨by decide, update_course_conflict_iff 1 wCodeUpdate 9 wState2 wCourse (by decide)⟩

/-- C6: every Create/Update/Delete that fails — with NotFound, Conflict,
BadReference, Validation or DuplicateId — returns the state it was given:
no record is inserted, modified or removed by a failing call.  (Person Create
has no failure branch, so it is vacuously covered.) -/
theorem failing_call_leaves_stores_unchanged :
    (∀ a now st e, (create_address a now st).1 = .error e →
        (create_address a now st).2 = st) ∧
    (∀ aid u st e, (update_address aid u st).1 = .error e →
        (update_address aid u st).2 = st) ∧
    (∀ pid u st e, (update_person pid u st).1 = .error e →
        (update_person pid u st).2 = st) ∧
    (∀ c id now st e, (create_course c id now st).1 = .error e →
        (create_course c id now st).2 = st) ∧
    (∀ cid u now st e, (update_course cid u now st).1 = .error e →
        (update_course cid u now st).2 = st) ∧
    (∀ cid st e, (delete_course cid st).1 = .error e →
        (delete_course cid st).2 = st) ∧
    (∀ a id now st e, (create_assignment_api a id now st).1 = .error e →
        (create_assignment_api a id now st).2 = st) ∧
    (∀ aid u now st e, (update_assignment_api aid u now st).1 = .error e →
        (update_assignment_api aid u now st).2 = st) ∧
    (∀ aid st e, (delete_assignment aid st).1 = .error e →
        (delete_assignment aid st).2 = st) := by
  refine ⟨?_, ?_, ?_, ?_, ?_, ?_, ?_, ?_, ?_⟩
  · intro a now st e h
    by_cases hc : hasKey st.addresses a.id = true
    · simp [create_address, hc]
    · simp [create_address, hc] at h
  · intro aid u st e h
    cases hg : getv st.addresses aid with
    | none => simp [update_address, hg]
    | some s => simp [update_address, hg] at h
  · intro pid u st e h
    cases hg : getv st.persons pid with
    | none => simp [update_person, hg]
    | some s => simp [update_person, hg] at h
  · intro c id now st e h
    by_cases hc : st.courses.any
        (fun p => p.2.code == c.code && p.2.semester == c.semester) = true
    · simp [create_course, hc]
    · simp [create_course, hc] at h
  · intro cid u now st e h
    cases hg : getv st.courses cid with
    | none => simp [update_course, hg]
    | some s =>
      by_cases hc : st.courses.any (fun p => p.2.id != cid &&
          p.2.code == u.code.getD s.code &&
          p.2.semester == u.semester.getD s.semester) = true
      · simp [update_course, hg, hc]
      · simp [update_course, hg, hc] at h
  · intro cid st e h
    by_cases hc : hasKey st.courses cid = true
    · simp [delete_course, hc] at h
    · simp [delete_course, hc]
  · intro a id now st e h
    cases hv : validate_points_create a.points with
    | error e2 => simp [create_assignment_api, hv]
    | ok pts =>
      by_cases hc : hasKey st.courses a.course_id = true
      · simp [create_assignment_api, hv, create_assignment, hc] at h
      · simp [create_assignment_api, hv, create_assignment, hc]
  · intro aid u now st e h
    cases hv : validate_points_update u.points with
    | error e2 => simp [update_assignment_api, hv]
    | ok pts =>
      cases hg : getv st.assignments aid with
      | none => simp [update_assignment_api, hv, update_assignment, hg]
      | some s =>
        by_cases hm : course_ref_missing st u.course_id = true
        · simp [update_assignment_api, hv, update_assignment, hg, hm]
        · simp [update_assignment_api, hv, update_assignment, hg, hm] at h
  · intro aid st e h
    by_cases hc : hasKey st.assignments aid = true
    · simp [delete_assignment, hc] at h
    · simp [delete_assignment, hc]

/-- C6 witness: the conflicting course Create on `wState` fails and leaves the
state intact. -/
theorem failing_call_leaves_stores_unchanged_witness :
    (create_course wCourseCreateDup 9 9 wState).1 = .error .conflict ∧
    (create_course wCourseCreateDup 9 9 wState).2 = wState :=
  ⟨by decide,
   failing_call_leaves_stores_unchanged.2.2.2.1 wCourseCreateDup 9 9 wState
     .conflict (by decide)⟩

/-- C7 counterexample: a successful Address update on `wState` stores and
returns a record whose updated_at still equals the pre-update value 5 —
`update_address` re-stores the dumped timestamps and never reads the clock, so
updated_at is NOT refreshed (not set to a distinct value) on this mutation,
refuting the claim for the Address (and likewise Person) entity. -/
theorem update_address_updated_at_unchanged_ce :
    getv wState.addresses 7 = some wAddress ∧
    update_address 7 ceAddrUpdate wState = (.ok ceAddrResult, wStateAU) ∧
    ceAddrResult.updated_at = wAddress.updated_at ∧
    getv wStateAU.addresses 7 = some ceAddrResult := by
  refine ⟨by decide, by decide, by decide, by decide⟩

/-- C7 amended: on every successful Course or Assignment Update the resulting
record's updated_at is refreshed to the call-time clock value, but Address and
Person Updates carry the stored updated_at through unchanged. -/
theorem updated_at_refresh_amended :
    (∀ cid u now st r st2, update_course cid u now st = (.ok r, st2) →
        r.updated_at = now) ∧
    (∀ aid u now st r st2, update_assignment aid u now st = (.ok r, st2) →
        r.updated_at = now) ∧
    (∀ aid u st s r st2, getv st.addresses aid = some s →
        update_address aid u st = (.ok r, st2) → r.updated_at = s.updated_at) ∧
    (∀ pid u st s r st2, getv st.persons pid = some s →
        update_person pid u st = (.ok r, st2) → r.updated_at = s.updated_at) := by
  refine ⟨?_, ?_, ?_, ?_⟩
  · intro cid u now st r st2 h
    cases hg : getv st.courses cid with
    | none => simp [update_course, hg] at h
    | some s =>
      simp only [update_course, hg] at h
      split at h
      · exact absurd h (by simp)
      · simp only [Prod.mk.injEq, Except.ok.injEq] at h
        obtain ⟨hr, -⟩ := h
        subst hr
        rfl
  · intro aid u now st r st2 h
    cases hg : getv st.assignments aid with
    | none => simp [update_assignment, hg] at h
    | some s =>
      simp only [update_assignment, hg] at h
      split at h
      · exact absurd h (by simp)
      · simp only [Prod.mk.injEq, Except.ok.injEq] at h
        obtain ⟨hr, -⟩ := h
        subst hr
        rfl
  · intro aid u st s r st2 hg h
    simp only [update_address, hg, Prod.mk.injEq, Except.ok.injEq] at h
    obtain ⟨hr, -⟩ := h
    subst hr
    rfl
  · intro pid u st s r st2 hg h
    simp only [update_person, hg, Prod.mk.injEq, Except.ok.injEq] at h
    obtain ⟨hr, -⟩ := h
    subst hr
    rfl

/-- C7 amended witness: the concrete Address update keeps updated_at = 5, and a
concrete Course update at time 9 gets updated_at = 9. -/
theorem updated_at_refresh_amended_witness :
    (getv wState.addresses 7 = some wAddress ∧
      update_address 7 ceAddrUpdate wState = (.ok ceAddrResult, wStateAU) ∧
      ceAddrResult.updated_at = wAddress.updated_at) ∧
    (update_course 1 wCourseUpdate 9 wState = (.ok wCourseMerged, wStateCU) ∧
      wCourseMerged.updated_at = 9) :=
  ⟨⟨by decide, by decide,
    updated_at_refresh_amended.2.2.1 7 ceAddrUpdate wState wAddress ceAddrResult
      wStateAU (by decide) (by decide)⟩,
   ⟨by decide,
    updated_at_refresh_amended.1 1 wCourseUpdate 9 wState wCourseMerged wStateCU
      (by decide)⟩⟩

theorem applyOp_refIntegrity {st : AppState} (h : refIntegrity st) (o : Op) :
    refIntegrity (applyOp o st) := by
  cases o with
  | createCourse c id now =>
    intro p hp
    by_cases hc : st.courses.any
        (fun q => q.2.code == c.code && q.2.semester == c.semester) = true
    · simp [applyOp, create_course, hc] at hp ⊢
      exact h p hp
    · simp [applyOp, create_course, hc] at hp ⊢
      exact hasKey_setv (h p hp)
  | updateCourse cid u now =>
    intro p hp
    cases hg : getv st.courses cid with
    | none =>
      simp [applyOp, update_course, hg] at hp ⊢
      exact h p hp
    | some s =>
      by_cases hc : st.courses.any (fun q => q.2.id != cid &&
          q.2.code == u.code.getD s.code &&
          q.2.semester == u.semester.getD s.semester) = true
      · simp [applyOp, update_course, hg, hc] at hp ⊢
        exact h p hp
      · simp [applyOp, update_course, hg, hc] at hp ⊢
        exact hasKey_setv (h p hp)
  | deleteCourse cid =>
    intro p hp
    by_cases hc : hasKey st.courses cid = true
    · simp [applyOp, delete_course, hc, List.mem_filter] at hp ⊢
      exact hasKey_delv (h p hp.1) hp.2
    · simp [applyOp, delete_course, hc] at hp ⊢
      exact h p hp
  | createAssignment a id now =>
    intro p hp
    cases hv : validate_points_create a.points with
    | error e =>
      simp [applyOp, create_assignment_api, hv] at hp ⊢
      exact h p hp
    | ok pts =>
      by_cases hc : hasKey st.courses a.course_id = true
      · simp only [applyOp, create_assignment_api, hv, create_assignment, hc,
          if_true] at hp ⊢
        rcases mem_setv hp with he | hmem
        · simpa [he] using hc
        · exact h p hmem
      · simp [applyOp, create_assignment_api, hv, create_assignment, hc] at hp ⊢
        exact h p hp
  | updateAssignment aid u now =>
    intro p hp
    cases hv : validate_points_update u.points with
    | error e =>
      simp [applyOp, update_assignment_api, hv] at hp ⊢
      exact h p hp
    | ok pts =>
      cases hg : getv st.assignments aid with
      | none =>
        simp [applyOp, update_assignment_api, hv, update_assignment, hg] at hp ⊢
        exact h p hp
      | some s =>
        by_cases hm : course_ref_missing st u.course_id = true
        · simp [applyOp, update_assignment_api, hv, update_assignment, hg, hm]
            at hp ⊢
          exact h p hp
        · simp only [applyOp, update_assignment_api, hv, update_assignment, hg,
            hm, Bool.false_eq_true, if_false] at hp ⊢
          rcases mem_setv hp with he | hmem
          · cases hu : u.course_id with
            | some k =>
              have hk : hasKey st.courses k = true := by
                simpa [course_ref_missing, hu] using hm
              simpa [he, hu] using hk
            | none =>
              have hs := h _ (getv_mem hg)
              simpa [he, hu] using hs
          · exact h p hmem
  | deleteAssignment aid =>
    intro p hp
    by_cases hc : hasKey st.assignments aid = true
    · simp [applyOp, delete_assignment, hc, delv, List.mem_filter] at hp ⊢
      exact h p hp.1
    · simp [applyOp, delete_assignment, hc] at hp ⊢
      exact h p hp

/-- C8: starting from the empty stores, after every sequence of Create, Update
and Delete requests on Courses and Assignments, every stored Assignment's
course_id is the key of a currently-stored Course. -/
theorem every_run_preserves_ref_integrity (ops : List Op) :
    refIntegrity (runOps ops emptyState) := by
  have hgen : ∀ st, refIntegrity st → refIntegrity (runOps ops st) := by
    induction ops with
    | nil =>
      intro st h
      simpa [runOps] using h
    | cons o t ih =>
      intro st h
      have hstep : runOps (o :: t) st = runOps t (applyOp o st) := by
        simp [runOps]
      rw [hstep]
      exact ih _ (applyOp_refIntegrity h o)
  apply hgen
  intro p hp
  simp [emptyState] at hp

/-- C9: an Assignment Create whose payload omits points stores the record with
points = 100; and on both Create and Update, a points value outside [0, 1000]
is rejected by validation with the state returned untouched — before any store
mutation. -/
theorem assignment_points_default_and_range :
    (∀ a id now st, a.points = none → hasKey st.courses a.course_id = true →
        ∃ r st2, create_assignment_api a id now st = (.ok r, st2) ∧
          r.points = some 100 ∧ getv st2.assignments id = some r) ∧
    (∀ a id now st v, a.points = some (some v) → (v < 0 ∨ 1000 < v) →
        create_assignment_api a id now st = (.error .validation, st)) ∧
    (∀ aid u now st v, u.points = some (some v) → (v < 0 ∨ 1000 < v) →
        update_assignment_api aid u now st = (.error .validation, st)) := by
  refine ⟨?_, ?_, ?_⟩
  · intro a id now st hp hc
    refine ⟨⟨id, a.course_id, a.title, a.due_date, some 100, now, now⟩,
      (create_assignment_api a id now st).2, ?_, rfl, ?_⟩
    · simp [create_assignment_api, hp, validate_points_create,
        create_assignment, hc]
    · simp [create_assignment_api, hp, validate_points_create,
        create_assignment, hc, getv_setv_self]
  · intro a id now st v hp hr
    have hcond : ¬(0 ≤ v ∧ v ≤ 1000) := by
      rcases hr with hlt | hgt <;> omega
    have hv : validate_points_create a.points = .error .validation := by
      simp [hp, validate_points_create, hcond]
    simp [create_assignment_api, hv]
  · intro aid u now st v hp hr
    have hcond : ¬(0 ≤ v ∧ v ≤ 1000) := by
      rcases hr with hlt | hgt <;> omega
    have hv : validate_points_update u.points = .error .validation := by
      simp [hp, validate_points_update, hcond]
    simp [update_assignment_api, hv]

/-- C9 witness: creating an assignment for course 1 of `wState` with points
omitted stores points = 100. -/
theorem assignment_points_default_and_range_witness :
    (⟨1, "HW2", none, none⟩ : AssignmentCreateRaw).points = none ∧
    hasKey wState.courses 1 = true ∧
    ∃ r st2, create_assignment_api ⟨1, "HW2", none, none⟩ 5 3 wState =
        (.ok r, st2) ∧ r.points = some 100 ∧ getv st2.assignments 5 = some r :=
  ⟨rfl, by decide,
   assignment_points_default_and_range.1 ⟨1, "HW2", none, none⟩ 5 3 wState rfl
     (by decide)⟩

/-- C10: a Person is in the `list_persons` result exactly when it is stored and
every supplied equality filter matches (logical AND), where the city (resp.
country) filter holds when at least one embedded Address has that city (resp.
country). -/
theorem list_persons_mem_iff (uni first_name last_name email phone birth_date
    city country : Option String) (st : AppState) (p : PersonRead) :
    p ∈ list_persons uni first_name last_name email phone birth_date city
        country st ↔
      ((∃ q ∈ st.persons, q.2 = p) ∧
       (∀ v, uni = some v → p.uni = some v) ∧
       (∀ v, first_name = some v → p.first_name = some v) ∧
       (∀ v, last_name = some v → p.last_name = some v) ∧
       (∀ v, email = some v → p.email = some v) ∧
       (∀ v, phone = some v → p.phone = some v) ∧
       (∀ v, birth_date = some v → birth_date_str p.birth_date = v) ∧
       (∀ v, city = some v → ∃ a ∈ p.addresses, a.city = v) ∧
       (∀ v, country = some v → ∃ a ∈ p.addresses, a.country = v)) := by
  simp only [list_persons, mem_optFilter, List.mem_map, List.any_eq_true,
    beq_iff_eq]
  tauto

/-- C10 witness: with only the city filter "NYC" supplied, the stored person
`wPerson` (one NYC address) is in the result. -/
theorem list_persons_mem_iff_witness :
    wPerson ∈ list_persons none none none none none none (some "NYC") none
      wState :=
  (list_persons_mem_iff none none none none none none (some "NYC") none wState
      wPerson).mpr
    ⟨⟨(4, wPerson), by decide, rfl⟩,
     fun v h => Option.noConfusion h, fun v h => Option.noConfusion h,
     fun v h => Option.noConfusion h, fun v h => Option.noConfusion h,
     fun v h => Option.noConfusion h, fun v h => Option.noConfusion h,
     fun v h => ⟨⟨"Broadway", "NYC", "NY", "10027", "USA"⟩, by decide,
       by simpa using Option.some.inj h⟩,
     fun v h => Option.noConfusion h⟩
